import Mathlib

/-!
Verification of the game-session layer of the cards-against repository.

The embedding covers the client view code and the socket dispatcher found in
src/www/src/views/Game.jsx. The file holds (in that order): the data model of a
game session, the client-side projection functions, the wire model for client
emissions and server-side payload destructuring, the dispatcher wrappers, a keyed
session store, the server game commands that are described only by the design
document (marked as such in their doc comments), a small transition system for the
scheduled round-winner announcement, helper lemmas, and the claim theorems.
-/

set_option autoImplicit false

namespace CardsAgainst

/-- A player of a session: stable id, display name, points and the hand of
response-card texts currently held. -/
structure Player where
  id : String
  name : String
  points : Nat
  cards : List String
deriving Repr, DecidableEq

/-- A prompt card: its text and the number of response cards a submission needs. -/
structure BlackCard where
  text : String
  pick : Nat
deriving Repr, DecidableEq

/-- One submitted response card inside a round: the card text, the submitting
player id, and a visibility flag that stays true until the host reveals it. -/
structure WhiteCardPlay where
  card : String
  player : String
  hidden : Bool
deriving Repr, DecidableEq

/-- The current round: judging host, prompt card and the submissions so far. -/
structure Round where
  host : String
  blackCard : BlackCard
  whiteCards : List WhiteCardPlay
deriving Repr, DecidableEq

/-- An immutable snapshot of a completed round together with the winner id. -/
structure FinishedRound where
  host : String
  blackCard : BlackCard
  whiteCards : List WhiteCardPlay
  winner : String
deriving Repr, DecidableEq

/-- A game session: id, players in join order, current round, the append-only
round history, the finished flag, and the remaining prompt pool of the deck loan. -/
structure Game where
  id : String
  players : List Player
  round : Round
  finishedRounds : List FinishedRound
  finished : Bool
  promptDeck : List BlackCard
deriving Repr, DecidableEq

/-- The object built by the client-side getLastFinishedRound: the spread of the
last FinishedRound with the winner field replaced by the looked-up Player, which
is absent (undefined in the source) when no present player carries that id. -/
structure ClientFinishedRound where
  host : String
  blackCard : BlackCard
  whiteCards : List WhiteCardPlay
  winner : Option Player
deriving Repr, DecidableEq

/-- Client-side getLastFinishedRound (src/www/src/views/Game.jsx lines 13-21):
reads the element at index length - 1 of finishedRounds, returns null when that
is absent, and otherwise returns the spread of the round with its winner field
replaced by the result of players.find on the stored winner id. -/
def getLastFinishedRound (game : Game) : Option ClientFinishedRound :=
  match game.finishedRounds.getLast? with
  | none => none
  | some round =>
      some { host := round.host
             blackCard := round.blackCard
             whiteCards := round.whiteCards
             winner := game.players.find? (fun p => p.id == round.winner) }

/-- The card text shown by the Round component for one submission (Game.jsx lines
313-330): both the host branch and the non-host branch render the placeholder
while the submission is hidden, and the decoded card text once revealed. The
DOM-based decodeHtml is kept abstract as a function parameter. -/
def renderWhiteCardText (decode : String → String) (c : WhiteCardPlay) : String :=
  if c.hidden then "¿?" else decode c.card

/-! Wire model: outbound emissions and their delivery, inbound payload values. -/

/-- Destination of an emission: a whole socket room or one connection id. -/
inductive Dest where
  | room (r : String)
  | client (c : String)
deriving Repr, DecidableEq

/-- Payload of an outbound event, as the dispatcher builds it. -/
inductive Payload where
  | game (g : Game)
  | str (s : String)
  | finishedRound (r : Option FinishedRound)
  | cards (cs : List String)
deriving Repr, DecidableEq

/-- One emitted event. -/
structure Emission where
  dest : Dest
  event : String
  payload : Payload
deriving Repr, DecidableEq

/-- Socket delivery semantics: an emission to a room reaches every member of the
room with the identical payload; an emission to a connection id reaches only it. -/
def deliverTo (members : List String) (e : Emission) : List (String × Emission) :=
  match e.dest with
  | Dest.room _ => members.map (fun c => (c, e))
  | Dest.client c => [(c, e)]

/-- The room-wide state broadcast every mutating handler performs
(Game.jsx lines 444, 450, 460, 466, 473, 479, 485): the full game value is
emitted as game:edit to the room game-<id>. -/
def gameEditEmission (gameId : String) (g : Game) : Emission :=
  { dest := Dest.room ("game-" ++ gameId), event := "game:edit", payload := Payload.game g }

/-- The card texts of still-hidden submissions that are readable from a payload. -/
def payloadHiddenCardTexts : Payload → List String
  | Payload.game g => (g.round.whiteCards.filter (fun w => w.hidden)).map (fun w => w.card)
  | _ => []

/-- Claim C1 as stated: no client other than the host ever receives the card text
of another player still-hidden submission through a room-wide state broadcast. -/
def noHiddenTextLeak (members : List String) (gameId : String) (g : Game) : Prop :=
  ∀ pr ∈ deliverTo members (gameEditEmission gameId g),
    pr.1 ≠ g.round.host →
      ∀ w ∈ g.round.whiteCards, w.hidden = true → w.player ≠ pr.1 →
        w.card ∉ payloadHiddenCardTexts pr.2.payload

/-- A primitive inbound value: undefined, a string, or an array of strings. -/
inductive JsLeaf where
  | undef
  | str (s : String)
  | arr (vs : List String)
deriving Repr, DecidableEq

/-- An inbound payload: a primitive or a flat object with named fields. -/
inductive JsValue where
  | prim (v : JsLeaf)
  | obj (fields : List (String × JsLeaf))
deriving Repr, DecidableEq

/-- First binding of a field name in an object literal. -/
def fieldGet (fields : List (String × JsLeaf)) (k : String) : JsLeaf :=
  match fields with
  | [] => JsLeaf.undef
  | f :: rest => if f.1 = k then f.2 else fieldGet rest k

/-- Property access as the handler destructurings perform it: a missing field of
an object, or any property of a primitive, is undefined. -/
def getField : JsValue → String → JsLeaf
  | JsValue.obj fields, k => fieldGet fields k
  | JsValue.prim _, _ => JsLeaf.undef

/-- The payload the client emits for game:play-white-cards (Game.jsx lines 67-72):
an object holding only gameId and cards. -/
def clientPlayCardsPayload (gameId : String) (cards : List String) : JsValue :=
  JsValue.obj [("gameId", JsLeaf.str gameId), ("cards", JsLeaf.arr cards)]

/-- The payload the client emits for game:discard-white-card (Game.jsx lines
89-94): an object holding gameId and the singular field card. -/
def clientDiscardPayload (gameId : String) (card : String) : JsValue :=
  JsValue.obj [("gameId", JsLeaf.str gameId), ("card", JsLeaf.str card)]

/-- The payload the client emits for game:leave (Game.jsx lines 108-111): the
bare game id string, not an object. -/
def clientLeavePayload (gameId : String) : JsValue :=
  JsValue.prim (JsLeaf.str gameId)

/-- The destructuring of the game:play-white-cards handler (Game.jsx line 463):
gameId, cards and playerId are read from the inbound payload. -/
def playWhiteCardsArgs (d : JsValue) : JsLeaf × JsLeaf × JsLeaf :=
  (getField d "gameId", getField d "cards", getField d "playerId")

/-- The destructuring of the game:discard-white-card handler (Game.jsx line 470):
it reads gameId, cards (plural) and playerId from the inbound payload. -/
def discardWhiteCardArgs (d : JsValue) : JsLeaf × JsLeaf × JsLeaf :=
  (getField d "gameId", getField d "cards", getField d "playerId")

/-- The destructuring of the game:leave handler (Game.jsx line 447): gameId and
playerId are read from the inbound payload. -/
def leaveArgs (d : JsValue) : JsLeaf × JsLeaf :=
  (getField d "gameId", getField d "playerId")

/-- The emissions of a successful game:play-white-cards handler run (Game.jsx
lines 463-468): the full state as game:edit and the cards-played pulse, both to
the room. -/
def playWhiteCardsEmissions (gameId : String) (g' : Game) (cards : List String) : List Emission :=
  [gameEditEmission gameId g',
   { dest := Dest.room ("game-" ++ gameId), event := "game:cards-played", payload := Payload.cards cards }]

/-- The emissions of a successful game:discard-white-card handler run (Game.jsx
lines 470-474): the full state as game:edit to the room. -/
def discardWhiteCardEmissions (gameId : String) (g' : Game) : List Emission :=
  [gameEditEmission gameId g']

/-- The dispatcher wrapper handleMessage (Game.jsx lines 417-427): it runs the
listener and, when the listener throws, emits one textual error event to the
originating connection id via io.to(socket.id). A listener is modelled by the
emissions it performed before returning or throwing plus the thrown message. -/
def handleMessage (socketId key : String)
    (listener : JsValue → List Emission × Option String) (data : JsValue) : List Emission :=
  match listener data with
  | (out, none) => out
  | (out, some err) =>
      out ++ [{ dest := Dest.client socketId, event := "error",
                payload := Payload.str ("error on \"" ++ key ++ "\" listener: " ++ err) }]

/-! Keyed session store and the Session Directory serialization discipline. -/

/-- The keyed session store: a session is one record under its id (design
document section 6). Lookup returns the first binding of the id. -/
def storeGet (store : List (String × Game)) (id : String) : Option Game :=
  match store with
  | [] => none
  | kv :: rest => if kv.1 = id then some kv.2 else storeGet rest id

/-- Modelled from the spec: the Session Directory and its withSession are part of
the db module, which is not under src/. Sections 4.3 and 5 of the design document
describe withSession as acquiring exclusive access for the session id, applying
the command to the current state and persisting the result before any other
command for the same id may run; accordingly one whole command is one atomic
store update here. -/
def withSession (store : List (String × Game)) (id : String) (fn : Game → Game) :
    List (String × Game) :=
  store.map (fun kv => if kv.1 = id then (kv.1, fn kv.2) else kv)

/-- Persisting a new state for a session id (the store write of a command). -/
def storeSet (store : List (String × Game)) (id : String) (g : Game) : List (String × Game) :=
  withSession store id (fun _ => g)

/-- Eviction of a session (db.removeGame in the game:leave handler). -/
def storeRemove (store : List (String × Game)) (id : String) : List (String × Game) :=
  store.filter (fun kv => kv.1 != id)

/-- Sequential execution of a stream of (session id, command) pairs, each through
the Directory serialization point. -/
def runCommands (store : List (String × Game)) (cmds : List (String × (Game → Game))) :
    List (String × Game) :=
  cmds.foldl (fun st c => withSession st c.1 c.2) store

/-- The subsequence of commands addressed to one session id, in arrival order. -/
def commandsFor (id : String) (cmds : List (String × (Game → Game))) : List (Game → Game) :=
  (cmds.filter (fun c => c.1 == id)).map (fun c => c.2)

/-! Server-side game commands. The server Game model is not under src/ (only the
dispatcher that calls it is), so the commands the claims depend on are modelled
from the design document, as their doc comments state. -/

/-- Modelled from the spec: getLastFinishedRound of the server Game model
(section 4.2, not under src/) — a pure read of the most recent snapshot, none
when no round has finished. -/
def serverGetLastFinishedRound (g : Game) : Option FinishedRound :=
  g.finishedRounds.getLast?

/-- Modelled from the spec: finishRound of the server Game model (section 4.2,
not under src/). It increments the winner points by one, snapshots the round
with the winner into finishedRounds, rotates the host to the next player after
the current host in join order (wrapping), resets the submissions, and draws the
next prompt card from the remaining prompt pool (the reshuffle-on-exhaustion
policy and the InvalidWinner validation are elided: no claim here concerns the
deck supply or the failure branch, which section 7 routes through the dispatcher
error path). The game-end condition is left unspecified by the design document
(section 9), so the finished flag is kept unchanged. -/
def serverFinishRound (g : Game) (winnerPlayerId : String) : Game :=
  let snap : FinishedRound :=
    { host := g.round.host
      blackCard := g.round.blackCard
      whiteCards := g.round.whiteCards
      winner := winnerPlayerId }
  let hostIdx := g.players.findIdx (fun p => p.id == g.round.host)
  let newHost :=
    ((g.players.get? ((hostIdx + 1) % g.players.length)).map Player.id).getD g.round.host
  { g with
    players := g.players.map
      (fun p => if p.id = winnerPlayerId then { p with points := p.points + 1 } else p)
    round := { host := newHost
               blackCard := (g.promptDeck.head?).getD g.round.blackCard
               whiteCards := [] }
    finishedRounds := g.finishedRounds ++ [snap]
    promptDeck := g.promptDeck.tail }

/-- Modelled from the spec: removePlayer of the server Game model (section 4.2,
not under src/). It removes the player, retracts a pending submission of that
player from the current round, and reassigns the host to the next player in join
order when the removed player was host; the dispatcher, which is under src/,
checks the resulting player list for emptiness and evicts the session. The
return of the leaver hand to the discard pool is elided: no claim here concerns
the deck supply. -/
def removePlayer (g : Game) (playerId : String) : Game :=
  let idx := g.players.findIdx (fun p => p.id == playerId)
  let players := g.players.filter (fun p => p.id != playerId)
  let newHost :=
    if g.round.host = playerId then
      ((players.get? (idx % players.length)).map Player.id).getD g.round.host
    else g.round.host
  { g with
    players := players
    round := { g.round with
               host := newHost
               whiteCards := g.round.whiteCards.filter (fun w => w.player != playerId) } }

/-! Transition system for the handlers that touch the store and the scheduled
round-winner announcement. -/

/-- A pending one-shot scheduled by setTimeout in the game:finish-round handler.
The callback closes over the game object as it stands after finishRound and over
the room name; it holds no reference to the store. -/
structure Timer where
  delay : Nat
  room : String
  capturedGame : Game
deriving Repr, DecidableEq

/-- Dispatcher-level state: the session store, the pending timers, and the log of
emissions so far, in emission order. -/
structure SysState where
  store : List (String × Game)
  timers : List Timer
  log : List Emission
deriving Repr, DecidableEq

/-- Firing a pending timer (the setTimeout callback of Game.jsx lines 486-488):
it emits game:round-winner to the captured room with getLastFinishedRound of the
captured game, with no lookup of the store, hence no way to fault when the
session has meanwhile been evicted. -/
def fireTimer (t : Timer) : Emission :=
  { dest := Dest.room t.room, event := "game:round-winner",
    payload := Payload.finishedRound (serverGetLastFinishedRound t.capturedGame) }

/-- The game:finish-round handler (Game.jsx lines 482-489): fetch the game, apply
finishRound, broadcast game:edit with the updated state at once, and schedule a
500 ms one-shot for the game:round-winner announcement. An unknown id makes
db.getGame fail into the dispatcher error path, which leaves store, timers and
room log unchanged. -/
def finishRoundStep (s : SysState) (gameId winnerPlayerId : String) : SysState :=
  match storeGet s.store gameId with
  | none => s
  | some g =>
      let g' := serverFinishRound g winnerPlayerId
      { store := storeSet s.store gameId g'
        timers := s.timers ++ [{ delay := 500, room := "game-" ++ gameId, capturedGame := g' }]
        log := s.log ++ [gameEditEmission gameId g'] }

/-- The game:leave handler success path (Game.jsx lines 447-455): apply
removePlayer, broadcast game:edit and then game:kick to the room, and evict the
session exactly when the resulting player list is empty. Pending timers are left
untouched: the code never cancels the setTimeout. -/
def leaveStep (s : SysState) (gameId playerId : String) : SysState :=
  match storeGet s.store gameId with
  | none => s
  | some g =>
      let g' := removePlayer g playerId
      { store := if g'.players.length = 0 then storeRemove s.store gameId
                 else storeSet s.store gameId g'
        timers := s.timers
        log := s.log ++
          [gameEditEmission gameId g',
           { dest := Dest.room ("game-" ++ gameId), event := "game:kick",
             payload := Payload.str playerId }] }

/-- Elapse of time past every pending delay: each scheduled one-shot fires, in
schedule order, and its emission is appended to the log. -/
def fireAllTimersStep (s : SysState) : SysState :=
  { store := s.store, timers := [], log := s.log ++ s.timers.map fireTimer }

/-! Concrete session states used by witnesses and counterexamples. -/

/-- A sample prompt card. -/
def sampleBlackCard : BlackCard := { text := "Prompt one", pick := 1 }

/-- Three players in join order; the first one judges. -/
def samplePlayers : List Player :=
  [{ id := "p1", name := "Ana", points := 0, cards := [] },
   { id := "p2", name := "Bea", points := 0, cards := ["w1"] },
   { id := "p3", name := "Cai", points := 0, cards := ["w2"] }]

/-- A session in mid-round with one still-hidden submission from player p2. -/
def leakGame : Game :=
  { id := "g1"
    players := samplePlayers
    round := { host := "p1", blackCard := sampleBlackCard,
               whiteCards := [{ card := "funny card", player := "p2", hidden := true }] }
    finishedRounds := []
    finished := false
    promptDeck := [] }

/-- A session where both non-host players have submitted and every submission is
revealed, ready for finishRound. -/
def rotGame : Game :=
  { id := "g2"
    players := samplePlayers
    round := { host := "p1", blackCard := sampleBlackCard,
               whiteCards := [{ card := "w1", player := "p2", hidden := false },
                              { card := "w2", player := "p3", hidden := false }] }
    finishedRounds := []
    finished := false
    promptDeck := [{ text := "Prompt two", pick := 1 }] }

/-- A session down to its last player p2 (the previous host already left), so the
next leave empties the player list and evicts the session. -/
def lastManGame : Game :=
  { id := "g1"
    players := [{ id := "p2", name := "Bea", points := 2, cards := ["w9"] }]
    round := { host := "p3", blackCard := sampleBlackCard,
               whiteCards := [{ card := "w5", player := "p2", hidden := false }] }
    finishedRounds := []
    finished := false
    promptDeck := [{ text := "Prompt two", pick := 1 }] }

/-- A finished session whose only recorded round was won by p2, who has since
left: the player list no longer holds the winner id. -/
def winnerGoneGame : Game :=
  { id := "g3"
    players := []
    round := { host := "p1", blackCard := sampleBlackCard, whiteCards := [] }
    finishedRounds := [{ host := "p1", blackCard := sampleBlackCard,
                         whiteCards := [{ card := "w1", player := "p2", hidden := false }],
                         winner := "p2" }]
    finished := true
    promptDeck := [] }

/-- Dispatcher state holding the finish-round sample session. -/
def sysFinish : SysState := { store := [("g2", rotGame)], timers := [], log := [] }

/-- Dispatcher state holding the last-player sample session. -/
def sysLastMan : SysState := { store := [("g1", lastManGame)], timers := [], log := [] }

/-- A sample command: award every player one point. -/
def awardAll : Game → Game :=
  fun g => { g with players := g.players.map (fun p => { p with points := p.points + 1 }) }

/-- A sample command: mark the game over. -/
def markFinished : Game → Game :=
  fun g => { g with finished := true }

/-- A store with two live sessions. -/
def demoStore : List (String × Game) := [("g1", leakGame), ("g2", rotGame)]

/-- An interleaved command stream addressing both sessions. -/
def demoCmds : List (String × (Game → Game)) :=
  [("g1", awardAll), ("g2", markFinished), ("g1", markFinished)]

/-- The delivery of the leaking broadcast to the non-host, non-submitting client p3. -/
def leakDelivery : String × Emission := ("p3", gameEditEmission "g1" leakGame)

/-! Helper lemmas on the keyed store. -/

theorem storeGet_withSession_self (st : List (String × Game)) (id : String) (fn : Game → Game) :
    storeGet (withSession st id fn) id = (storeGet st id).map fn := by
  induction st with
  | nil => rfl
  | cons kv rest ih =>
    by_cases hk : kv.1 = id
    · simp [withSession, storeGet, hk] at ih ⊢
    · simp [withSession, storeGet, hk] at ih ⊢
      exact ih

theorem storeGet_withSession_ne (st : List (String × Game)) (k : String) (fn : Game → Game)
    (id : String) (h : k ≠ id) :
    storeGet (withSession st k fn) id = storeGet st id := by
  induction st with
  | nil => rfl
  | cons kv rest ih =>
    by_cases hk : kv.1 = k
    · simp [withSession, storeGet, hk, h] at ih ⊢
      exact ih
    · by_cases hid : kv.1 = id
      · simp [withSession, storeGet, hk, hid, Ne.symm h]
      · simp [withSession, storeGet, hk, hid] at ih ⊢
        exact ih

theorem storeGet_storeSet_self (st : List (String × Game)) (id : String) (g : Game) :
    storeGet (storeSet st id g) id = (storeGet st id).map (fun _ => g) :=
  storeGet_withSession_self st id (fun _ => g)

theorem storeGet_storeRemove_self (st : List (String × Game)) (id : String) :
    storeGet (storeRemove st id) id = none := by
  induction st with
  | nil => rfl
  | cons kv rest ih =>
    by_cases hk : kv.1 = id
    · simpa [storeRemove, List.filter_cons, hk] using ih
    · simpa [storeRemove, storeGet, List.filter_cons, hk] using ih

/-! Claim theorems. -/

/-- Claim C6 as stated, per game: getLastFinishedRound returns null exactly when
finishedRounds is empty, and otherwise hands back the last element itself — all
fields preserved, the winner field still identifying the stored winner id. -/
def returnsLastElementVerbatim (g : Game) : Bool :=
  match g.finishedRounds.getLast?, getLastFinishedRound g with
  | none, none => true
  | some last, some r =>
      r.host == last.host && r.blackCard == last.blackCard &&
        r.whiteCards == last.whiteCards && r.winner.map Player.id == some last.winner
  | _, _ => false

/-- C6, counterexample: the claim says getLastFinishedRound returns the most
recent element of finishedRounds as the snapshot; on winnerGoneGame the last
snapshot records winner p2, but the returned object carries winner undefined
(p2 is no longer in the player list), so the last element is not returned
verbatim. -/
theorem getLastFinishedRound_not_verbatim_snapshot :
    returnsLastElementVerbatim winnerGoneGame = false := by decide

/-- C6, amended: getLastFinishedRound returns null exactly when finishedRounds is
empty, and otherwise returns the last element with its winner field replaced by
the players.find lookup of the stored winner id (src lines 13-21). -/
theorem getLastFinishedRound_resolves_winner_lookup (g : Game) :
    getLastFinishedRound g =
      (g.finishedRounds.getLast?).map
        (fun last =>
          { host := last.host, blackCard := last.blackCard, whiteCards := last.whiteCards,
            winner := g.players.find? (fun p => p.id == last.winner) }) ∧
    (getLastFinishedRound g = none ↔ g.finishedRounds = []) := by
  have h1 : getLastFinishedRound g =
      (g.finishedRounds.getLast?).map
        (fun last =>
          { host := last.host, blackCard := last.blackCard, whiteCards := last.whiteCards,
            winner := g.players.find? (fun p => p.id == last.winner) }) := by
    cases h : g.finishedRounds.getLast? <;> simp [getLastFinishedRound, h]
  refine ⟨h1, ?_⟩
  rw [h1, Option.map_eq_none', List.getLast?_eq_none_iff]

/-- C10: for a game with round history, the client getLastFinishedRound resolves
the winner field to the present Player carrying the stored winner id, and that
field is absent (undefined, neither an error nor the raw id) exactly when no
present player carries the id. -/
theorem client_last_round_winner_resolved (g : Game) (last : FinishedRound)
    (h : g.finishedRounds.getLast? = some last) :
    getLastFinishedRound g =
      some { host := last.host, blackCard := last.blackCard, whiteCards := last.whiteCards,
             winner := g.players.find? (fun p => p.id == last.winner) } ∧
    (g.players.find? (fun p => p.id == last.winner) = none ↔
      (g.players.all fun p => p.id != last.winner) = true) := by
  constructor
  · simp [getLastFinishedRound, h]
  · rw [List.find?_eq_none, List.all_eq_true]
    simp

/-- C10 witness: on winnerGoneGame the winner p2 has left, so the resolved winner
field is none. -/
theorem client_last_round_winner_resolved_witness :
    winnerGoneGame.finishedRounds.getLast? =
      some { host := "p1", blackCard := sampleBlackCard,
             whiteCards := [{ card := "w1", player := "p2", hidden := false }],
             winner := "p2" } ∧
    (getLastFinishedRound winnerGoneGame =
      some { host := "p1", blackCard := sampleBlackCard,
             whiteCards := [{ card := "w1", player := "p2", hidden := false }],
             winner := winnerGoneGame.players.find? (fun p => p.id == "p2") } ∧
     (winnerGoneGame.players.find? (fun p => p.id == "p2") = none ↔
       (winnerGoneGame.players.all fun p => p.id != "p2") = true)) :=
  ⟨by decide,
   client_last_round_winner_resolved winnerGoneGame
     { host := "p1", blackCard := sampleBlackCard,
       whiteCards := [{ card := "w1", player := "p2", hidden := false }], winner := "p2" }
     (by decide)⟩

/-- C1, counterexample: the claim says a client other than the host never
receives the unhidden card text of another player still-hidden submission
through a room-wide state broadcast. The game:edit broadcast carries the whole
game value to every room member, so the non-host, non-submitting client p3
receives the hidden submission text of p2 in full. -/
theorem game_edit_broadcast_leaks_hidden_text :
    ¬ noHiddenTextLeak ["p1", "p2", "p3"] "g1" leakGame := by
  unfold noHiddenTextLeak
  decide

/-- C1, amended: every room member, host or not, receives the identical full
state payload — hidden submissions included with their card text — and hiding is
enforced only by the client projection, which renders the placeholder for any
submission whose hidden flag is still true, so hidden text is never displayed
before reveal although it is received. -/
theorem hidden_submission_received_but_masked (members : List String) (gameId : String)
    (g : Game) (pr : String × Emission)
    (hpr : pr ∈ deliverTo members (gameEditEmission gameId g))
    (decode : String → String) (w : WhiteCardPlay)
    (_hw : w ∈ g.round.whiteCards) (hh : w.hidden = true) :
    pr.2.payload = Payload.game g ∧ renderWhiteCardText decode w = "¿?" := by
  have hpr' : pr ∈ members.map (fun c => (c, gameEditEmission gameId g)) := hpr
  obtain ⟨c, _, rfl⟩ := List.mem_map.mp hpr'
  exact ⟨rfl, by simp [renderWhiteCardText, hh]⟩

/-- C1 witness: the delivery of the leaking broadcast to client p3 carries the
full game, and the projection masks the hidden card of p2. -/
theorem hidden_submission_received_but_masked_witness :
    leakDelivery ∈ deliverTo ["p1", "p2", "p3"] (gameEditEmission "g1" leakGame) ∧
    ({ card := "funny card", player := "p2", hidden := true } : WhiteCardPlay) ∈
      leakGame.round.whiteCards ∧
    ({ card := "funny card", player := "p2", hidden := true } : WhiteCardPlay).hidden = true ∧
    (leakDelivery.2.payload = Payload.game leakGame ∧
      renderWhiteCardText (fun s => s)
        { card := "funny card", player := "p2", hidden := true } = "¿?") :=
  ⟨by decide, by decide, rfl,
   hidden_submission_received_but_masked ["p1", "p2", "p3"] "g1" leakGame leakDelivery
     (by decide) (fun s => s) { card := "funny card", player := "p2", hidden := true }
     (by decide) rfl⟩

/-- C3: when a listener throws, the dispatcher wrapper appends exactly one error
event with a textual message, addressed to the originating connection id, so no
event derived from the failure targets a room. -/
theorem listener_error_private_to_origin (socketId key : String)
    (listener : JsValue → List Emission × Option String) (data : JsValue)
    (out : List Emission) (err : String) (h : listener data = (out, some err)) :
    handleMessage socketId key listener data =
      out ++ [{ dest := Dest.client socketId, event := "error",
                payload := Payload.str ("error on \"" ++ key ++ "\" listener: " ++ err) }] ∧
    ((handleMessage socketId key listener data).drop out.length).map Emission.dest =
      [Dest.client socketId] := by
  have h1 : handleMessage socketId key listener data =
      out ++ [{ dest := Dest.client socketId, event := "error",
                payload := Payload.str ("error on \"" ++ key ++ "\" listener: " ++ err) }] := by
    simp [handleMessage, h]
  refine ⟨h1, ?_⟩
  rw [h1, List.drop_left]
  rfl

/-- C3 witness: a listener that throws the message boom without emitting causes
only the private error event for connection sock1. -/
theorem listener_error_private_to_origin_witness :
    (fun _ : JsValue => (([] : List Emission), some "boom")) (JsValue.prim JsLeaf.undef) =
      (([] : List Emission), some "boom") ∧
    (handleMessage "sock1" "game:start" (fun _ => ([], some "boom")) (JsValue.prim JsLeaf.undef) =
      [] ++ [{ dest := Dest.client "sock1", event := "error",
               payload := Payload.str ("error on \"" ++ "game:start" ++ "\" listener: " ++ "boom") }] ∧
     ((handleMessage "sock1" "game:start" (fun _ => ([], some "boom"))
         (JsValue.prim JsLeaf.undef)).drop (([] : List Emission)).length).map Emission.dest =
       [Dest.client "sock1"]) :=
  ⟨rfl,
   listener_error_private_to_origin "sock1" "game:start" (fun _ => ([], some "boom"))
     (JsValue.prim JsLeaf.undef) [] "boom" rfl⟩

/-- C7: the claim (and the handler destructuring at line 463) expects the
submit-cards payload to carry the acting player id, but the payload the client
code builds (lines 67-72) holds only gameId and cards, so the handler passes an
undefined player id to playWhiteCards for every in-repo submit-cards command; a
successful run does emit game:edit and game:cards-played room-wide. -/
theorem play_white_cards_payload_missing_player_id (gameId : String) (cards : List String)
    (g' : Game) :
    playWhiteCardsArgs (clientPlayCardsPayload gameId cards) =
      (JsLeaf.str gameId, JsLeaf.arr cards, JsLeaf.undef) ∧
    (playWhiteCardsEmissions gameId g' cards).map Emission.event =
      ["game:edit", "game:cards-played"] ∧
    (playWhiteCardsEmissions gameId g' cards).map Emission.dest =
      [Dest.room ("game-" ++ gameId), Dest.room ("game-" ++ gameId)] :=
  ⟨rfl, rfl, rfl⟩

/-- C8: the claim (and the spec table) says the discard payload delivers the
card and the acting player id to discardWhiteCard, but the handler at line 470
destructures the field cards (plural) and playerId while the client (lines
89-94) sends the field card (singular) and no player id: the handler therefore
receives undefined for both, while the card value sits unread under the other
field name; the success path emits game:edit room-wide. -/
theorem discard_payload_field_mismatch (gameId card : String) (g' : Game) :
    discardWhiteCardArgs (clientDiscardPayload gameId card) =
      (JsLeaf.str gameId, JsLeaf.undef, JsLeaf.undef) ∧
    getField (clientDiscardPayload gameId card) "card" = JsLeaf.str card ∧
    (discardWhiteCardEmissions gameId g').map Emission.event = ["game:edit"] ∧
    (discardWhiteCardEmissions gameId g').map Emission.dest =
      [Dest.room ("game-" ++ gameId)] :=
  ⟨rfl, rfl, rfl, rfl⟩

/-- C9: the claim (and the handler destructuring at line 447) expects the leave
payload to be an object carrying gameId and playerId, but the client emission
(lines 108-111) is the bare game id string, so both destructured fields are
undefined for every in-repo leave command. -/
theorem leave_payload_bare_game_id (gameId : String) :
    clientLeavePayload gameId = JsValue.prim (JsLeaf.str gameId) ∧
    leaveArgs (clientLeavePayload gameId) = (JsLeaf.undef, JsLeaf.undef) :=
  ⟨rfl, rfl⟩

/-- C2: under the Directory serialization discipline, every command stream
leaves a session id with exactly the in-order fold of the commands addressed to
that id over its initial state — commands for the same id are totally ordered
and no update is lost to another command for the same id. -/
theorem same_session_commands_totally_ordered (store : List (String × Game))
    (cmds : List (String × (Game → Game))) (id : String) (g : Game)
    (h : storeGet store id = some g) :
    storeGet (runCommands store cmds) id =
      some ((commandsFor id cmds).foldl (fun a f => f a) g) := by
  induction cmds generalizing store g with
  | nil => simpa [runCommands, commandsFor] using h
  | cons c cs ih =>
    have hrun : runCommands store (c :: cs) = runCommands (withSession store c.1 c.2) cs := rfl
    by_cases hc : c.1 = id
    · have h1 : storeGet (withSession store c.1 c.2) id = some (c.2 g) := by
        rw [hc, storeGet_withSession_self, h]; rfl
      rw [hrun]
      have hrec := ih (withSession store c.1 c.2) (c.2 g) h1
      simpa [commandsFor, List.filter_cons, hc] using hrec
    · have h1 : storeGet (withSession store c.1 c.2) id = some g := by
        rw [storeGet_withSession_ne _ _ _ _ hc, h]
      rw [hrun]
      have hrec := ih (withSession store c.1 c.2) g h1
      simpa [commandsFor, List.filter_cons, hc] using hrec

/-- C2 witness: an interleaved stream for two sessions leaves session g1 with
exactly its own two commands folded in order. -/
theorem same_session_commands_totally_ordered_witness :
    storeGet demoStore "g1" = some leakGame ∧
    storeGet (runCommands demoStore demoCmds) "g1" =
      some ((commandsFor "g1" demoCmds).foldl (fun a f => f a) leakGame) :=
  ⟨by decide,
   same_session_commands_totally_ordered demoStore demoCmds "g1" leakGame (by decide)⟩

/-- C4: a successful finish-round run appends the game:edit broadcast with the
advanced state to the room log at once, while the game:round-winner announcement
exists only as a pending one-shot with the fixed 500 ms delay; firing it later
emits the announcement room-wide with getLastFinishedRound of the same session
state, which is the snapshot of the just-finished round with the chosen winner. -/
theorem finish_round_edit_then_delayed_winner (s : SysState) (gameId winnerPlayerId : String)
    (g : Game) (h : storeGet s.store gameId = some g) :
    (finishRoundStep s gameId winnerPlayerId).log =
      s.log ++ [gameEditEmission gameId (serverFinishRound g winnerPlayerId)] ∧
    (finishRoundStep s gameId winnerPlayerId).timers =
      s.timers ++ [{ delay := 500, room := "game-" ++ gameId,
                     capturedGame := serverFinishRound g winnerPlayerId }] ∧
    fireTimer { delay := 500, room := "game-" ++ gameId,
                capturedGame := serverFinishRound g winnerPlayerId } =
      { dest := Dest.room ("game-" ++ gameId), event := "game:round-winner",
        payload := Payload.finishedRound
          (serverGetLastFinishedRound (serverFinishRound g winnerPlayerId)) } ∧
    serverGetLastFinishedRound (serverFinishRound g winnerPlayerId) =
      some { host := g.round.host, blackCard := g.round.blackCard,
             whiteCards := g.round.whiteCards, winner := winnerPlayerId } := by
  refine ⟨?_, ?_, rfl, ?_⟩
  · simp [finishRoundStep, h]
  · simp [finishRoundStep, h]
  · simp [serverGetLastFinishedRound, serverFinishRound, List.getLast?_concat]

/-- C4 witness: finishing the sample round in favour of p2 broadcasts the edit
at once and leaves the delayed winner announcement pending with the snapshot. -/
theorem finish_round_edit_then_delayed_winner_witness :
    storeGet sysFinish.store "g2" = some rotGame ∧
    ((finishRoundStep sysFinish "g2" "p2").log =
      sysFinish.log ++ [gameEditEmission "g2" (serverFinishRound rotGame "p2")] ∧
     (finishRoundStep sysFinish "g2" "p2").timers =
      sysFinish.timers ++ [{ delay := 500, room := "game-" ++ "g2",
                             capturedGame := serverFinishRound rotGame "p2" }] ∧
     fireTimer { delay := 500, room := "game-" ++ "g2",
                 capturedGame := serverFinishRound rotGame "p2" } =
      { dest := Dest.room ("game-" ++ "g2"), event := "game:round-winner",
        payload := Payload.finishedRound
          (serverGetLastFinishedRound (serverFinishRound rotGame "p2")) } ∧
     serverGetLastFinishedRound (serverFinishRound rotGame "p2") =
      some { host := rotGame.round.host, blackCard := rotGame.round.blackCard,
             whiteCards := rotGame.round.whiteCards, winner := "p2" }) :=
  ⟨by decide, finish_round_edit_then_delayed_winner sysFinish "g2" "p2" rotGame (by decide)⟩

/-- C5, counterexample: the claim says the delayed announcement is cancelled
when the session is destroyed before it fires. In the modelled trace the last
player finishes a round and then leaves within the delay: the session is evicted
from the store, yet the pending one-shot still fires and the game:round-winner
announcement is emitted to the room. -/
theorem destroyed_session_timer_still_emits :
    storeGet (leaveStep (finishRoundStep sysLastMan "g1" "p2") "g1" "p2").store "g1" = none ∧
    ∃ e ∈ (fireAllTimersStep (leaveStep (finishRoundStep sysLastMan "g1" "p2") "g1" "p2")).log,
      e.event = "game:round-winner" ∧ e.dest = Dest.room "game-g1" := by decide

/-- C5, amended: the scheduled announcement is a plain, non-cancellable one-shot.
When the session is destroyed before the delay fires, the timer survives the
eviction and still emits the game:round-winner announcement, built from the
state captured at scheduling time; the firing needs no store lookup, so it
causes no fault. -/
theorem round_winner_timer_survives_session_destruction (s : SysState)
    (gameId winnerPlayerId leaverId : String) (g : Game)
    (hg : storeGet s.store gameId = some g)
    (hempty : (removePlayer (serverFinishRound g winnerPlayerId) leaverId).players = []) :
    storeGet (leaveStep (finishRoundStep s gameId winnerPlayerId) gameId leaverId).store
      gameId = none ∧
    (leaveStep (finishRoundStep s gameId winnerPlayerId) gameId leaverId).timers =
      s.timers ++ [{ delay := 500, room := "game-" ++ gameId,
                     capturedGame := serverFinishRound g winnerPlayerId }] ∧
    (fireAllTimersStep (leaveStep (finishRoundStep s gameId winnerPlayerId) gameId leaverId)).log =
      (leaveStep (finishRoundStep s gameId winnerPlayerId) gameId leaverId).log ++
        (s.timers ++ [({ delay := 500, room := "game-" ++ gameId,
                         capturedGame := serverFinishRound g winnerPlayerId } : Timer)]).map
          fireTimer ∧
    fireTimer { delay := 500, room := "game-" ++ gameId,
                capturedGame := serverFinishRound g winnerPlayerId } =
      { dest := Dest.room ("game-" ++ gameId), event := "game:round-winner",
        payload := Payload.finishedRound
          (serverGetLastFinishedRound (serverFinishRound g winnerPlayerId)) } := by
  have hstep : storeGet (finishRoundStep s gameId winnerPlayerId).store gameId =
      some (serverFinishRound g winnerPlayerId) := by
    simp [finishRoundStep, hg, storeGet_storeSet_self]
  have htimers : (finishRoundStep s gameId winnerPlayerId).timers =
      s.timers ++ [{ delay := 500, room := "game-" ++ gameId,
                     capturedGame := serverFinishRound g winnerPlayerId }] := by
    simp [finishRoundStep, hg]
  have hlvstore : (leaveStep (finishRoundStep s gameId winnerPlayerId) gameId leaverId).store =
      storeRemove (finishRoundStep s gameId winnerPlayerId).store gameId := by
    simp [leaveStep, hstep, hempty]
  have hlvtimers : (leaveStep (finishRoundStep s gameId winnerPlayerId) gameId leaverId).timers =
      (finishRoundStep s gameId winnerPlayerId).timers := by
    simp [leaveStep, hstep]
  refine ⟨?_, ?_, ?_, rfl⟩
  · rw [hlvstore]
    exact storeGet_storeRemove_self _ _
  · rw [hlvtimers, htimers]
  · have hfire :
        (fireAllTimersStep (leaveStep (finishRoundStep s gameId winnerPlayerId) gameId
            leaverId)).log =
          (leaveStep (finishRoundStep s gameId winnerPlayerId) gameId leaverId).log ++
            (leaveStep (finishRoundStep s gameId winnerPlayerId) gameId
              leaverId).timers.map fireTimer := rfl
    rw [hfire, hlvtimers, htimers]

/-- C5 witness: the amended statement instantiated on the last-player session. -/
theorem round_winner_timer_survives_witness :
    storeGet sysLastMan.store "g1" = some lastManGame ∧
    (removePlayer (serverFinishRound lastManGame "p2") "p2").players = [] ∧
    (storeGet (leaveStep (finishRoundStep sysLastMan "g1" "p2") "g1" "p2").store "g1" = none ∧
     (leaveStep (finishRoundStep sysLastMan "g1" "p2") "g1" "p2").timers =
       sysLastMan.timers ++ [{ delay := 500, room := "game-" ++ "g1",
                               capturedGame := serverFinishRound lastManGame "p2" }] ∧
     (fireAllTimersStep (leaveStep (finishRoundStep sysLastMan "g1" "p2") "g1" "p2")).log =
       (leaveStep (finishRoundStep sysLastMan "g1" "p2") "g1" "p2").log ++
         (sysLastMan.timers ++ [({ delay := 500, room := "game-" ++ "g1",
                                   capturedGame := serverFinishRound lastManGame "p2" } : Timer)]).map
           fireTimer ∧
     fireTimer { delay := 500, room := "game-" ++ "g1",
                 capturedGame := serverFinishRound lastManGame "p2" } =
       { dest := Dest.room ("game-" ++ "g1"), event := "game:round-winner",
         payload := Payload.finishedRound
           (serverGetLastFinishedRound (serverFinishRound lastManGame "p2")) }) :=
  ⟨by decide, by decide,
   round_winner_timer_survives_session_destruction sysLastMan "g1" "p2" "p2" lastManGame
     (by decide) (by decide)⟩

end CardsAgainst
